import Mathlib

/-!
Verification development for the LocalAgent-Ollama browser extension.

The extension has three surfaces: a background service worker
(streaming relay to a local Ollama server, tab-content extraction with a
URL denylist, prompt assembly), a side-panel UI (mention parsing, model
selection), and a content script (page-text extraction with truncation).
The definitions below are a shallow embedding of those functions; the
effectful platform calls (tab lookup, content-script messaging) are
passed in as explicit environment functions.
-/

namespace LocalAgent

/-! ## Streaming generation relay (generateWithOllama)

The Ollama response body is a sequence of newline-delimited records.
Each nonblank line either fails JSON.parse (malformed) or yields a
record carrying a text fragment (the response field, absent modelled as
the empty string, which is exactly the falsy case of the source), a
completion flag (done) and a model name.  The source iterates lines in
arrival order; an onChunk callback receives each nonempty fragment.  We
thread the accumulator and the list of fragments forwarded to onChunk
explicitly. -/

inductive StreamLine where
  | malformed : StreamLine
  | record (response : String) (done : Bool) (model : String) : StreamLine
deriving DecidableEq

structure GenResult where
  success : Bool
  text : String
  model : Option String
deriving DecidableEq

/-- One step per line, mirroring the for-loop body of the source:
malformed lines are skipped (the catch branch only warns); a truthy
response field is appended to the accumulator and forwarded to onChunk;
a set done flag returns immediately with the accumulated text and the
model name of that record.  Falling off the end of the stream returns
the accumulator as a success with no model field. -/
def processLines : List StreamLine → String → List String → GenResult × List String
  | [], acc, sent => ({ success := true, text := acc, model := none }, sent)
  | StreamLine.malformed :: rest, acc, sent => processLines rest acc sent
  | StreamLine.record resp dn mdl :: rest, acc, sent =>
      let acc2 := if resp = "" then acc else acc ++ resp
      let sent2 := if resp = "" then sent else sent ++ [resp]
      if dn then ({ success := true, text := acc2, model := some mdl }, sent2)
      else processLines rest acc2 sent2

/-- The stream-processing core of generateWithOllama, starting from an
empty accumulator and no forwarded chunks.  The first component is the
returned result object, the second the sequence of onChunk arguments. -/
def generateWithOllama (lines : List StreamLine) : GenResult × List String :=
  processLines lines "" []

/-- The nonempty text fragments carried by the records of a stream, in
arrival order (a record with an empty or absent response field carries
no fragment, matching the falsiness test of the source). -/
def fragments : List StreamLine → List String
  | [] => []
  | StreamLine.malformed :: rest => fragments rest
  | StreamLine.record resp _ _ :: rest =>
      if resp = "" then fragments rest else resp :: fragments rest

/-- Whether a line is a record whose completion flag is set. -/
def lineDone : StreamLine → Bool
  | StreamLine.malformed => false
  | StreamLine.record _ dn _ => dn

/-- The lines up to and including the first record whose completion
flag is set (the whole stream when there is none). -/
def upToFirstDone : List StreamLine → List StreamLine
  | [] => []
  | l :: rest => if lineDone l then [l] else l :: upToFirstDone rest

/-- The model name of the first record whose completion flag is set. -/
def firstDoneModel : List StreamLine → Option String
  | [] => none
  | StreamLine.malformed :: rest => firstDoneModel rest
  | StreamLine.record _ dn mdl :: rest =>
      if dn then some mdl else firstDoneModel rest

/-- Concatenation of a list of strings in order. -/
def concatAll : List String → String
  | [] => ""
  | s :: rest => s ++ concatAll rest

/-! ## Tab directory and tab-content extraction

A Tab mirrors the {id, title, url} shape the side panel sends with a
query (the active flag of getAllTabs snapshots plays no role in the
claims).  A missing title or url is the empty string, which is exactly
the falsy case of the source.  The platform calls are passed in as an
environment: getTab models chrome.tabs.get, and msg collapses the
send-message / inject-and-retry sequence into its net outcome (a reply
object, or every attempt threw).  Each extraction function also
returns a Bool that is true exactly on the code paths that message the
content script or inject it, so that the denylist claims can speak
about page scripting never being invoked. -/

structure Tab where
  id : Nat
  title : String
  url : String
deriving DecidableEq

structure ExtractResult where
  title : String
  url : String
  content : String
  contentLength : Nat
deriving DecidableEq

inductive MsgReply where
  | threw : MsgReply
  | replied (success : Bool) (data : ExtractResult) : MsgReply
deriving DecidableEq

/-- Character-level test that the first list begins with the second,
modelling the startsWith method of the source on the underlying
character sequences. -/
def startsWithChars : List Char → List Char → Bool
  | _, [] => true
  | [], _ :: _ => false
  | c :: s, p :: ps => c = p && startsWithChars s ps

/-- startsWith of the source, over the character sequences of the two
strings. -/
def strStartsWith (s p : String) : Bool :=
  startsWithChars s.data p.data

/-- The URL test guarding extraction: the empty URL (the falsy case of
the source, which also covers a missing url field) or any of the fixed
denylist of scheme prefixes. -/
def restrictedUrl (url : String) : Bool :=
  url = "" ||
  strStartsWith url ("chrome://") ||
  strStartsWith url ("chrome-extension://") ||
  strStartsWith url ("edge://") ||
  strStartsWith url ("brave://") ||
  strStartsWith url ("about:") ||
  strStartsWith url ("data:")

/-- extractTabContent of the background worker.  Resolving the tab id
fails or the restricted-URL check fires before any messaging; otherwise
the content script is messaged (injected and retried when absent, which
the msg environment folds into one outcome) and a non-success reply or
a throw degrades to the refresh placeholder.  The success reply spreads
the extracted data (its extra tabTitle and tabUrl fields are not part
of any claim and are dropped here). -/
def extractTabContent (getTab : Nat → Option Tab) (msg : Nat → MsgReply)
    (tabId : Nat) : ExtractResult × Bool :=
  match getTab tabId with
  | none =>
      ({ title := "Error", url := "", content := "[Tab not found]",
         contentLength := 0 }, false)
  | some tab =>
      if restrictedUrl tab.url then
        ({ title := if tab.title = "" then "Restricted Tab" else tab.title,
           url := tab.url,
           content := "[Cannot access system or extension pages]",
           contentLength := 0 }, false)
      else
        match msg tabId with
        | MsgReply.replied true d => (d, true)
        | MsgReply.replied false _ =>
            ({ title := if tab.title = "" then "Error" else tab.title,
               url := tab.url,
               content := "[Could not extract content - tab may need to be refreshed]",
               contentLength := 0 }, true)
        | MsgReply.threw =>
            ({ title := if tab.title = "" then "Error" else tab.title,
               url := tab.url,
               content := "[Could not extract content - tab may need to be refreshed]",
               contentLength := 0 }, true)

/-- extractActiveTabContent of the background worker: the same contract
for the focused tab of the current window (active is the query result,
none when there is no such tab).  A tab id of 0 is the falsy id case of
the source. -/
def extractActiveTabContent (active : Option Tab) (msg : Nat → MsgReply) :
    ExtractResult × Bool :=
  match active with
  | none =>
      ({ title := "Current Tab", url := "", content := "[No active tab found]",
         contentLength := 0 }, false)
  | some tab =>
      if tab.id = 0 then
        ({ title := "Current Tab", url := "", content := "[No active tab found]",
           contentLength := 0 }, false)
      else if restrictedUrl tab.url then
        ({ title := "Current Tab", url := "",
           content := "[Cannot access system or extension pages]",
           contentLength := 0 }, false)
      else
        match msg tab.id with
        | MsgReply.replied true d => (d, true)
        | MsgReply.replied false _ =>
            ({ title := "Current Tab", url := "",
               content := "[Content extraction unavailable - tab may need to be refreshed]",
               contentLength := 0 }, true)
        | MsgReply.threw =>
            ({ title := "Current Tab", url := "",
               content := "[Content extraction unavailable - tab may need to be refreshed]",
               contentLength := 0 }, true)

/-! ## Prompt construction (handleQuery and handleStreamingQuery)

Both handlers throw when the model is empty before building anything;
the prompt builders below embed the construction that follows.  The
extraction environment gives the per-tab extraction results (the
Promise.all of the source preserves input order, which the map below
mirrors) and the active-page result; extractActiveTabContent never
rejects (every failure path returns a placeholder), so the
page-content-unavailable catch branch of both handlers is dead code and
the builders always receive a result object. -/

/-- The per-tab context block pushed for each mentioned tab: the title
and url of the mention, the content of the matching extraction. -/
def tabBlock (info : Tab) (data : ExtractResult) : String :=
  "Tab: " ++ info.title ++ "\nURL: " ++ info.url ++ "\n\nContent:\n" ++
    data.content ++ "\n"

/-- The prompt handleQuery builds when mentionedTabs is nonempty:
extraction results in input order, one block per tab joined by a
separator, then the question and the Answer trailer. -/
def mentionedTabsPrompt (query : String) (tabs : List Tab)
    (extract : Nat → ExtractResult) : String :=
  let tabContents := tabs.map (fun t => extract t.id)
  let contextParts := List.zipWith tabBlock tabs tabContents
  "Based on the following web page content from referenced tabs, please answer the question.\n\n"
    ++ String.intercalate ("\n---\n\n") contextParts
    ++ "\n\nQuestion: " ++ query ++ "\n\nAnswer:"

/-- The single-page prompt built from the active tab when
includePageContent is set. -/
def pagePrompt (query : String) (page : ExtractResult) : String :=
  "Based on the following web page content, please answer the question.\n\nPage Title: "
    ++ page.title ++ "\nURL: " ++ page.url ++ "\n\nContent:\n" ++ page.content
    ++ "\n\nQuestion: " ++ query ++ "\n\nAnswer:"

/-- The prompt handleQuery passes to the generator: mentioned tabs take
priority, then the include-page-content flag, else the raw query. -/
def buildQueryPrompt (query : String) (includePageContent : Bool)
    (mentionedTabs : List Tab) (extract : Nat → ExtractResult)
    (activePage : ExtractResult) : String :=
  if mentionedTabs.length > 0 then
    mentionedTabsPrompt query mentionedTabs extract
  else if includePageContent then
    pagePrompt query activePage
  else
    query

/-- The prompt handleStreamingQuery passes to the generator.  The
handler destructures only query, model, includePageContent and
messageId from its input object: the mentionedTabs field is never read,
so the parameters for it and for per-tab extraction are unused here,
exactly as in the source. -/
def buildStreamingPrompt (query : String) (includePageContent : Bool)
    (mentionedTabs : List Tab) (extract : Nat → ExtractResult)
    (activePage : ExtractResult) : String :=
  if includePageContent then pagePrompt query activePage else query

/-! ## Mention parsing (parseTabMentions)

The textarea variant of the panel extracts every token matching the
pattern at-sign, double quote, one or more non-quote characters, double
quote, scanning left to right without overlap; the contenteditable
variant reads the recorded titles off the mention elements instead.
Both then resolve each recorded title by exact match against the
current tab snapshot, dropping titles with no match.  splitAtQuote and
scanMentions embed the global regex scan; resolveMentions embeds the
shared resolution loop. -/

/-- Split a character list at its first double quote: the characters
before it and the characters after it, or none when there is no quote
(the capture group admits no quote, so it runs to the closing one). -/
def splitAtQuote : List Char → Option (List Char × List Char)
  | [] => none
  | c :: rest =>
      if c = '"' then some ([], rest)
      else (splitAtQuote rest).map (fun p => (c :: p.1, p.2))

theorem splitAtQuote_length :
    ∀ (l tok rest : List Char), splitAtQuote l = some (tok, rest) →
      rest.length < l.length := by
  intro l
  induction l with
  | nil => intro tok rest h; simp [splitAtQuote] at h
  | cons c cs ih =>
      intro tok rest h
      rw [splitAtQuote] at h
      by_cases hc : c = '"'
      · rw [if_pos hc] at h
        simp at h
        simp [← h.2]
      · rw [if_neg hc] at h
        cases hsq : splitAtQuote cs with
        | none => rw [hsq] at h; simp at h
        | some p =>
            obtain ⟨p1, p2⟩ := p
            rw [hsq] at h
            simp at h
            rw [← h.2]
            exact Nat.lt_succ_of_lt (ih p1 p2 hsq)

/-- All tokens of the global mention pattern, leftmost first: at an
at-sign followed by a double quote, capture up to the next quote; an
empty capture or a missing closing quote is no match there and the scan
moves on (a quote can never open a later match, so resuming after the
double quote loses nothing). -/
def scanMentions : List Char → List String
  | [] => []
  | '@' :: '"' :: rest =>
      match h : splitAtQuote rest with
      | some (tok, rest2) =>
          if tok.isEmpty then scanMentions rest
          else String.mk tok :: scanMentions rest2
      | none => scanMentions rest
  | _ :: rest => scanMentions rest
termination_by l => l.length
decreasing_by
  · simp only [List.length_cons]; omega
  · exact Nat.lt_succ_of_lt (Nat.lt_succ_of_lt (splitAtQuote_length _ _ _ h))
  · simp only [List.length_cons]; omega
  · simp only [List.length_cons]; omega

/-- The mention tokens of a query text. -/
def mentionTokens (text : String) : List String :=
  scanMentions text.data

/-- The resolution loop shared by both panel variants: each recorded
title is looked up by exact title match in the tab snapshot; a hit is
pushed, a miss contributes nothing. -/
def resolveMentions (titles : List String) (allTabs : List Tab) : List Tab :=
  titles.filterMap (fun name => allTabs.find? (fun t => t.title == name))

/-- parseTabMentions of the textarea panel variant: scan the query text
for quoted mention tokens, then resolve them against the snapshot. -/
def parseTabMentions (text : String) (allTabs : List Tab) : List Tab :=
  resolveMentions (mentionTokens text) allTabs

/-! ## Startup model selection (init and loadModels)

On panel startup, loadModels fetches the descriptor catalog; when the
fetch succeeded and is nonempty it selects the first fetched model
(the selection starts out null).  init then reads the persisted name
and overrides the selection only when that name is truthy and present
among the fetched descriptors. -/

structure ModelDescriptor where
  name : String
  size : Nat
deriving DecidableEq

/-- The selected model at the end of init, as a function of whether the
catalog fetch succeeded, the fetched descriptors, and the persisted
name (none when storage holds nothing). -/
def initSelectedModel (fetchOk : Bool) (models : List ModelDescriptor)
    (saved : Option String) : Option String :=
  let haveModels := fetchOk && !models.isEmpty
  let available : List ModelDescriptor := if haveModels then models else []
  let sel : Option String :=
    if haveModels then (models.head?).map (fun m => m.name) else none
  match saved with
  | some s =>
      if !(s == "") && available.any (fun m => m.name == s) then some s else sel
  | none => sel

/-! ## Content extractor (extractPageContent of the content script)

After the DOM selection and boilerplate stripping, the script holds the
flattened text of the chosen element; the pure tail of the function is
the whitespace cleanup, the 10000-character truncation and the result
shape.  The first cleanup step replaces every maximal whitespace run by
one space; the second regex of the source rewrites blank lines, but the
string it sees no longer contains a line break (every whitespace run
was just replaced by a single space), so it is the identity here and
the embedding omits it; trimming then strips leading and trailing
whitespace. -/

/-- The whitespace class of the cleanup regexes. -/
def isWs (c : Char) : Bool :=
  c = ' ' || c = '\t' || c = '\n' || c = '\r' ||
  c = Char.ofNat 11 || c = Char.ofNat 12

/-- Replace every maximal run of whitespace characters by one space. -/
def collapseWsL : List Char → List Char
  | [] => []
  | [c] => if isWs c then [' '] else [c]
  | c1 :: c2 :: rest =>
      if isWs c1 then
        if isWs c2 then collapseWsL (c2 :: rest)
        else ' ' :: collapseWsL (c2 :: rest)
      else c1 :: collapseWsL (c2 :: rest)

/-- Strip leading and trailing whitespace. -/
def trimL (l : List Char) : List Char :=
  ((l.dropWhile isWs).reverse.dropWhile isWs).reverse

/-- The whitespace-normalized extraction text: runs collapsed, ends
trimmed. -/
def cleanWhitespace (s : String) : String :=
  String.mk (trimL (collapseWsL s.data))

/-- The data object of a successful extractPageContent run, as a
function of the page title, the page URL and the raw flattened text:
normalize whitespace, truncate to the first 10000 characters with an
ellipsis marker when longer, and report the length of the resulting
content string. -/
def extractPageContent (title url rawText : String) : ExtractResult :=
  let cleaned := cleanWhitespace rawText
  let mainContent :=
    if cleaned.length > 10000 then String.mk (cleaned.data.take 10000) ++ "..."
    else cleaned
  { title := title, url := url, content := mainContent,
    contentLength := mainContent.length }

/-! ## Helper lemmas -/

/-- Closed form of the stream-processing loop: the run always succeeds,
appends exactly the fragments up to and including the first completion
record, forwards those same fragments, and reports the model of that
record when there is one. -/
theorem processLines_eq (lines : List StreamLine) :
    ∀ acc sent, processLines lines acc sent =
      ({ success := true,
         text := acc ++ concatAll (fragments (upToFirstDone lines)),
         model := firstDoneModel lines },
       sent ++ fragments (upToFirstDone lines)) := by
  induction lines with
  | nil =>
      intro acc sent
      simp [processLines, upToFirstDone, fragments, firstDoneModel, concatAll,
        String.append_empty]
  | cons l rest ih =>
      intro acc sent
      cases l with
      | malformed =>
          simp [processLines, upToFirstDone, lineDone, fragments,
            firstDoneModel, ih]
      | record resp dn mdl =>
          by_cases hr : resp = ""
          · by_cases hd : dn = true
            · simp [processLines, hr, hd, upToFirstDone, lineDone, fragments,
                firstDoneModel, concatAll, String.append_empty]
            · simp only [Bool.not_eq_true] at hd
              simp [processLines, hr, hd, upToFirstDone, lineDone, fragments,
                firstDoneModel, ih]
          · by_cases hd : dn = true
            · simp [processLines, hr, hd, upToFirstDone, lineDone, fragments,
                firstDoneModel, concatAll, String.append_empty]
            · simp only [Bool.not_eq_true] at hd
              simp [processLines, hr, hd, upToFirstDone, lineDone, fragments,
                firstDoneModel, concatAll, ih, String.append_assoc]

/-- When no record of the stream carries the completion flag, the whole
stream is processed and no completion model is reported. -/
theorem upToFirstDone_of_no_done (lines : List StreamLine)
    (h : ∀ l ∈ lines, lineDone l = false) :
    upToFirstDone lines = lines ∧ firstDoneModel lines = none := by
  induction lines with
  | nil => simp [upToFirstDone, firstDoneModel]
  | cons l rest ih =>
      have hl : lineDone l = false := h l (by simp)
      have hrest := ih (fun x hx => h x (by simp [hx]))
      cases l with
      | malformed =>
          simp [upToFirstDone, firstDoneModel, lineDone, hrest.1, hrest.2]
      | record resp dn mdl =>
          simp [lineDone] at hl
          simp [upToFirstDone, firstDoneModel, lineDone, hl, hrest.1, hrest.2]

/-- Filtering out the elements on which a partial map returns nothing
does not change the result of the partial map. -/
theorem filterMap_filter_isSome {α β : Type} (f : α → Option β) :
    ∀ l : List α,
      l.filterMap f = (l.filter (fun a => (f a).isSome)).filterMap f := by
  intro l
  induction l with
  | nil => simp
  | cons a rest ih =>
      cases hf : f a with
      | none => simp [List.filter_cons, hf, ih]
      | some b => simp [List.filter_cons, hf, List.filterMap_cons, ih]

/-! ## C2: streaming accumulation -/

/-- C2: for a well-formed stream (no malformed line), generateWithOllama
succeeds, forwards to onChunk exactly the text fragments of the records
up to and including the first completion record, in arrival order,
returns as its text the concatenation of exactly those forwarded
fragments, and reports the model of the first completion record. -/
theorem generate_stream_accumulation (lines : List StreamLine)
    (h : ∀ l ∈ lines, l ≠ StreamLine.malformed) :
    (generateWithOllama lines).1.success = true ∧
    (generateWithOllama lines).2 = fragments (upToFirstDone lines) ∧
    (generateWithOllama lines).1.text = concatAll ((generateWithOllama lines).2) ∧
    (generateWithOllama lines).1.model = firstDoneModel lines := by
  have he := processLines_eq lines "" []
  simp [generateWithOllama, he, String.empty_append, List.nil_append]

/-- Witness for C2 on a concrete two-record stream ending in a
completion record. -/
theorem generate_stream_accumulation_witness :
    ([StreamLine.record ("Hel") false (""),
      StreamLine.record ("lo") true ("llama3")].all
        (fun l => !(l == StreamLine.malformed))) = true ∧
    ((generateWithOllama [StreamLine.record ("Hel") false (""),
        StreamLine.record ("lo") true ("llama3")]).1.success = true ∧
     (generateWithOllama [StreamLine.record ("Hel") false (""),
        StreamLine.record ("lo") true ("llama3")]).2
        = fragments (upToFirstDone [StreamLine.record ("Hel") false (""),
            StreamLine.record ("lo") true ("llama3")]) ∧
     (generateWithOllama [StreamLine.record ("Hel") false (""),
        StreamLine.record ("lo") true ("llama3")]).1.text
        = concatAll ((generateWithOllama [StreamLine.record ("Hel") false (""),
            StreamLine.record ("lo") true ("llama3")]).2) ∧
     (generateWithOllama [StreamLine.record ("Hel") false (""),
        StreamLine.record ("lo") true ("llama3")]).1.model
        = firstDoneModel [StreamLine.record ("Hel") false (""),
            StreamLine.record ("lo") true ("llama3")]) :=
  ⟨by decide, generate_stream_accumulation _ (by decide)⟩

/-! ## C5: malformed lines are skipped -/

theorem processLines_malformed_skip (pre : List StreamLine) :
    ∀ (post : List StreamLine) (acc : String) (sent : List String),
      processLines (pre ++ StreamLine.malformed :: post) acc sent
        = processLines (pre ++ post) acc sent := by
  induction pre with
  | nil => intro post acc sent; simp [processLines]
  | cons l rest ih =>
      intro post acc sent
      cases l with
      | malformed => simp [processLines, ih]
      | record resp dn mdl =>
          by_cases hd : dn = true
          · simp [processLines, hd]
          · simp only [Bool.not_eq_true] at hd
            simp [processLines, hd, ih]

/-- C5: a line that fails to parse contributes nothing and does not
abort the stream; the run over the stream with the malformed line is
the run over the stream without it, so every later well-formed line is
still processed normally and the accumulated text is unchanged. -/
theorem malformed_line_skipped (pre post : List StreamLine) :
    generateWithOllama (pre ++ StreamLine.malformed :: post)
      = generateWithOllama (pre ++ post) := by
  unfold generateWithOllama
  exact processLines_malformed_skip pre post "" []

/-! ## C6: stream ending without a completion record -/

/-- C6: when no record of the stream carries the completion flag, the
run still returns a success object whose text is the concatenation of
every fragment of the stream, with no model field and no distinct
truncated or incomplete signal. -/
theorem stream_without_completion_is_success (lines : List StreamLine)
    (h : ∀ l ∈ lines, lineDone l = false) :
    (generateWithOllama lines).1
      = { success := true, text := concatAll (fragments lines), model := none } := by
  obtain ⟨h1, h2⟩ := upToFirstDone_of_no_done lines h
  have he := processLines_eq lines "" []
  simp only [generateWithOllama, he, h1, h2, String.empty_append]

/-- Witness for C6 on a concrete stream with no completion record. -/
theorem stream_without_completion_is_success_witness :
    ([StreamLine.record ("Hi") false (""),
      StreamLine.record (" there") false ("")].all
        (fun l => !(lineDone l))) = true ∧
    (generateWithOllama [StreamLine.record ("Hi") false (""),
        StreamLine.record (" there") false ("")]).1
      = { success := true,
          text := concatAll (fragments [StreamLine.record ("Hi") false (""),
            StreamLine.record (" there") false ("")]),
          model := none } :=
  ⟨by decide, stream_without_completion_is_success _ (by decide)⟩

/-! ## C1: streaming handler versus plain handler prompt construction -/

/-- C1 counterexample: with one mentioned tab and includePageContent
off, handleQuery builds the per-tab context prompt but
handleStreamingQuery builds the raw query, so the prompts differ. -/
theorem streaming_prompt_differs_on_mentions :
    ¬ (buildQueryPrompt ("Summarize") false [⟨1, "Docs", "https://x"⟩]
          (fun _ => ⟨"Docs", "https://x", "Hello world", 11⟩) ⟨"", "", "", 0⟩
        = buildStreamingPrompt ("Summarize") false [⟨1, "Docs", "https://x"⟩]
            (fun _ => ⟨"Docs", "https://x", "Hello world", 11⟩) ⟨"", "", "", 0⟩) := by
  decide

/-- C1 as amended: handleStreamingQuery never reads the mentionedTabs
field, so its prompt always equals the prompt handleQuery builds for
the same input with no mentioned tabs; the two constructions agree
exactly when mentionedTabs is empty. -/
theorem streaming_prompt_ignores_mentions (query : String)
    (includePageContent : Bool) (mentionedTabs : List Tab)
    (extract : Nat → ExtractResult) (activePage : ExtractResult) :
    buildStreamingPrompt query includePageContent mentionedTabs extract activePage
      = buildQueryPrompt query includePageContent [] extract activePage := by
  simp [buildStreamingPrompt, buildQueryPrompt]

/-! ## C3: per-tab context blocks of the mentioned-tabs prompt -/

/-- C3 counterexample: the prompt built from a mentioned tab does not
end with the user question, because a fixed Answer trailer follows the
question. -/
theorem query_prompt_does_not_end_with_question :
    (("Summarize").data.isSuffixOf
        (buildQueryPrompt ("Summarize") false [⟨1, "Docs", "https://x"⟩]
          (fun _ => ⟨"Docs", "https://x", "Hello world", 11⟩) ⟨"", "", "", 0⟩).data)
      = false := by
  decide

/-- C3 as amended: for a nonempty mention list the prompt is a fixed
header, then exactly one context block per mentioned tab, in input
order, joined by a fixed separator, where the block of each tab carries
that mention's title and URL and that tab's extraction content, and the
prompt ends with the user question followed by the fixed Answer
trailer. -/
theorem mentioned_tabs_prompt_blocks (query : String)
    (includePageContent : Bool) (mentionedTabs : List Tab)
    (extract : Nat → ExtractResult) (activePage : ExtractResult)
    (h : mentionedTabs ≠ []) :
    buildQueryPrompt query includePageContent mentionedTabs extract activePage
      = "Based on the following web page content from referenced tabs, please answer the question.\n\n"
          ++ String.intercalate ("\n---\n\n")
              (mentionedTabs.map (fun t => tabBlock t (extract t.id)))
          ++ "\n\nQuestion: " ++ query ++ "\n\nAnswer:"
    ∧ (mentionedTabs.map (fun t => tabBlock t (extract t.id))).length
        = mentionedTabs.length := by
  have hl : mentionedTabs.length > 0 := List.length_pos.mpr h
  constructor
  · simp only [buildQueryPrompt, if_pos hl, mentionedTabsPrompt,
      List.zipWith_map_right, List.zipWith_same]
  · simp

/-- Witness for C3 as amended, on the one-tab Summarize scenario. -/
theorem mentioned_tabs_prompt_blocks_witness :
    ([(⟨1, "Docs", "https://x"⟩ : Tab)] ≠ []) ∧
    (buildQueryPrompt ("Summarize") false [⟨1, "Docs", "https://x"⟩]
        (fun _ => ⟨"Docs", "https://x", "Hello world", 11⟩) ⟨"", "", "", 0⟩
      = "Based on the following web page content from referenced tabs, please answer the question.\n\n"
          ++ String.intercalate ("\n---\n\n")
              (([(⟨1, "Docs", "https://x"⟩ : Tab)]).map
                (fun t => tabBlock t
                  ((fun _ => (⟨"Docs", "https://x", "Hello world", 11⟩ : ExtractResult)) t.id)))
          ++ "\n\nQuestion: " ++ "Summarize" ++ "\n\nAnswer:"
    ∧ (([(⟨1, "Docs", "https://x"⟩ : Tab)]).map
          (fun t => tabBlock t
            ((fun _ => (⟨"Docs", "https://x", "Hello world", 11⟩ : ExtractResult)) t.id))).length
        = ([(⟨1, "Docs", "https://x"⟩ : Tab)]).length) :=
  ⟨by decide,
   mentioned_tabs_prompt_blocks ("Summarize") false [⟨1, "Docs", "https://x"⟩]
     (fun _ => ⟨"Docs", "https://x", "Hello world", 11⟩) ⟨"", "", "", 0⟩ (by decide)⟩

/-! ## C4: mentions without a matching tab are dropped silently -/

/-- C4: mention resolution is total and never fails; a mention token
whose recorded title matches no tab title in the snapshot contributes
nothing, so the resolved list equals the resolution of the matching
tokens alone; and every resolved entry is a tab of the snapshot whose
title is one of the mention tokens of the query text. -/
theorem unmatched_mentions_dropped (text : String) (tabs : List Tab) :
    parseTabMentions text tabs
      = resolveMentions
          ((mentionTokens text).filter
            (fun name => tabs.any (fun t => t.title == name))) tabs
    ∧ (parseTabMentions text tabs).all
        (fun m => tabs.contains m && (mentionTokens text).contains m.title)
      = true := by
  constructor
  · have hfn : (fun name => (tabs.find? (fun t => t.title == name)).isSome)
        = (fun name => tabs.any (fun t => t.title == name)) := by
      funext name
      rw [Bool.eq_iff_iff, List.find?_isSome, List.any_eq_true]
    calc parseTabMentions text tabs
        = ((mentionTokens text).filter
            (fun name => (tabs.find? (fun t => t.title == name)).isSome)).filterMap
            (fun name => tabs.find? (fun t => t.title == name)) :=
          filterMap_filter_isSome _ (mentionTokens text)
      _ = _ := by rw [hfn]; rfl
  · rw [List.all_eq_true]
    intro m hm
    rw [parseTabMentions, resolveMentions, List.mem_filterMap] at hm
    obtain ⟨name, hname, hfind⟩ := hm
    have hmem : m ∈ tabs := List.mem_of_find?_eq_some hfind
    have htitle := List.find?_some hfind
    simp only [beq_iff_eq] at htitle
    subst htitle
    simp [hmem, hname, List.contains_eq_any_beq, List.any_eq_true]

/-! ## C7: restricted URLs never reach page scripting -/

/-- C7: for a tab whose URL is empty or starts with one of the denylist
scheme prefixes, both extraction entry points return a placeholder with
contentLength 0, and the scripting flag stays false: no content-script
message is sent and no script is injected. -/
theorem restricted_url_no_scripting (getTab : Nat → Option Tab)
    (msg : Nat → MsgReply) (tabId : Nat) (tab atab : Tab)
    (h1 : getTab tabId = some tab)
    (h2 : tab.url = "" ∨ strStartsWith tab.url ("chrome://") = true ∨
          strStartsWith tab.url ("chrome-extension://") = true ∨
          strStartsWith tab.url ("edge://") = true ∨
          strStartsWith tab.url ("brave://") = true ∨
          strStartsWith tab.url ("about:") = true ∨
          strStartsWith tab.url ("data:") = true)
    (h3 : atab.url = "" ∨ strStartsWith atab.url ("chrome://") = true ∨
          strStartsWith atab.url ("chrome-extension://") = true ∨
          strStartsWith atab.url ("edge://") = true ∨
          strStartsWith atab.url ("brave://") = true ∨
          strStartsWith atab.url ("about:") = true ∨
          strStartsWith atab.url ("data:") = true) :
    ((extractTabContent getTab msg tabId).1.contentLength = 0 ∧
     (extractTabContent getTab msg tabId).2 = false) ∧
    ((extractActiveTabContent (some atab) msg).1.contentLength = 0 ∧
     (extractActiveTabContent (some atab) msg).2 = false) := by
  have hr : restrictedUrl tab.url = true := by
    rw [restrictedUrl]
    rcases h2 with h | h | h | h | h | h | h <;> simp [h]
  have hra : restrictedUrl atab.url = true := by
    rw [restrictedUrl]
    rcases h3 with h | h | h | h | h | h | h <;> simp [h]
  refine ⟨?_, ?_⟩
  · rw [extractTabContent, h1]
    simp [hr]
  · rw [extractActiveTabContent]
    by_cases hid : atab.id = 0
    · simp [hid]
    · simp [hid, hra]

/-- Witness for C7: a chrome scheme tab for the by-id entry point and
an about scheme tab for the active-tab entry point. -/
theorem restricted_url_no_scripting_witness :
    (strStartsWith ("chrome://settings") ("chrome://") = true) ∧
    (strStartsWith ("about:blank") ("about:") = true) ∧
    (((extractTabContent (fun _ => some ⟨5, "Settings", "chrome://settings"⟩)
        (fun _ => MsgReply.threw) 5).1.contentLength = 0 ∧
      (extractTabContent (fun _ => some ⟨5, "Settings", "chrome://settings"⟩)
        (fun _ => MsgReply.threw) 5).2 = false) ∧
     ((extractActiveTabContent (some ⟨7, "New Tab", "about:blank"⟩)
        (fun _ => MsgReply.threw)).1.contentLength = 0 ∧
      (extractActiveTabContent (some ⟨7, "New Tab", "about:blank"⟩)
        (fun _ => MsgReply.threw)).2 = false)) :=
  ⟨by decide, by decide,
   restricted_url_no_scripting (fun _ => some ⟨5, "Settings", "chrome://settings"⟩)
     (fun _ => MsgReply.threw) 5 ⟨5, "Settings", "chrome://settings"⟩
     ⟨7, "New Tab", "about:blank"⟩ rfl
     (Or.inr (Or.inl (by decide)))
     (Or.inr (Or.inr (Or.inr (Or.inr (Or.inr (Or.inl (by decide)))))))⟩

/-! ## C8: truncation of the extracted page text -/

/-- C8: the content of an extraction result is exactly the first 10000
characters of the whitespace-normalized text, with the three-character
ellipsis marker appended exactly when that text is longer than 10000
characters, and the full text unchanged with no marker otherwise. -/
theorem extract_page_content_truncation (title url raw : String) :
    (extractPageContent title url raw).content
      = String.mk ((cleanWhitespace raw).data.take 10000)
          ++ (if 10000 < (cleanWhitespace raw).length then "..." else "") := by
  show (if (cleanWhitespace raw).length > 10000 then
          String.mk ((cleanWhitespace raw).data.take 10000) ++ "..."
        else cleanWhitespace raw) = _
  by_cases h : (cleanWhitespace raw).length > 10000
  · rw [if_pos h, if_pos h]
  · rw [if_neg h, if_neg h]
    have hle : (cleanWhitespace raw).data.length ≤ 10000 := Nat.le_of_not_lt h
    rw [List.take_of_length_le hle]
    exact (String.append_empty _).symm

/-! ## C9: startup revalidation of the persisted model name -/

/-- C9 counterexample: one fetched model and a persisted name absent
from the fetched set still leave a model pre-selected, namely the first
fetched one. -/
theorem saved_model_absent_still_selects :
    (([⟨"llama3", 42⟩] : List ModelDescriptor).all
        (fun m => !(m.name == "mistral"))) = true ∧
    initSelectedModel true [⟨"llama3", 42⟩] (some ("mistral"))
      = some ("llama3") := by
  constructor
  · decide
  · decide

/-- C9 as amended: the persisted name is revalidated against the
freshly fetched descriptor set, and when it is absent the saved name
itself is never selected; the selection instead falls back to the first
fetched model, so no model is pre-selected only when the fetched set is
empty. -/
theorem saved_model_absent_not_selected (models : List ModelDescriptor)
    (s : String) (h : ∀ m ∈ models, m.name ≠ s) :
    initSelectedModel true models (some s)
        = (models.head?).map (fun m => m.name)
    ∧ initSelectedModel true models (some s) ≠ some s := by
  have hany : models.any (fun m => m.name == s) = false := by
    rw [← Bool.not_eq_true, List.any_eq_true]
    rintro ⟨m, hm, he⟩
    exact h m hm (by simpa using he)
  cases models with
  | nil => simp [initSelectedModel]
  | cons m ms =>
      have hsel : initSelectedModel true (m :: ms) (some s) = some m.name := by
        simp [initSelectedModel, hany]
      refine ⟨by simp [hsel], ?_⟩
      rw [hsel]
      intro hc
      exact h m (by simp) (by simpa using hc)

/-- Witness for C9 as amended, on a one-model catalog and an absent
persisted name. -/
theorem saved_model_absent_not_selected_witness :
    (([⟨"llama3", 42⟩] : List ModelDescriptor).all
        (fun m => !(m.name == "mistral"))) = true ∧
    (initSelectedModel true ([⟨"llama3", 42⟩] : List ModelDescriptor)
        (some ("mistral"))
        = (([⟨"llama3", 42⟩] : List ModelDescriptor).head?).map (fun m => m.name)
    ∧ initSelectedModel true ([⟨"llama3", 42⟩] : List ModelDescriptor)
        (some ("mistral")) ≠ some ("mistral")) :=
  ⟨by decide, saved_model_absent_not_selected [⟨"llama3", 42⟩] ("mistral") (by decide)⟩

/-! ## C10: the reported contentLength counts the marker -/

/-- C10: every extraction result reports contentLength equal to the
length of its content string, marker included; the reported length is
the normalized length capped at 10000, plus 3 for the marker exactly
when the text was truncated, hence 10003 and not 10000 for a page
longer than 10000 characters. -/
theorem content_length_counts_marker (title url raw : String) :
    (extractPageContent title url raw).contentLength
        = (extractPageContent title url raw).content.length
    ∧ (extractPageContent title url raw).contentLength
        = (if 10000 < (cleanWhitespace raw).length then 10003
           else (cleanWhitespace raw).length) := by
  refine ⟨rfl, ?_⟩
  show (if (cleanWhitespace raw).length > 10000 then
          String.mk ((cleanWhitespace raw).data.take 10000) ++ "..."
        else cleanWhitespace raw).length = _
  by_cases h : (cleanWhitespace raw).length > 10000
  · rw [if_pos h, if_pos h, String.length_append]
    have hlen : (String.mk ((cleanWhitespace raw).data.take 10000)).length
        = 10000 := by
      show ((cleanWhitespace raw).data.take 10000).length = 10000
      rw [List.length_take]
      exact Nat.min_eq_left (Nat.le_of_lt h)
    rw [hlen]
    rfl
  · rw [if_neg h, if_neg h]

end LocalAgent
